import Mathlib

/-!
Formal model of the MoonTVPlus storage layer.

The definitions below are a shallow embedding of the TypeScript storage
backends in src/lib/postgres.db.ts and src/lib/d1.db.ts, together with the
SQL schema (Postgres init script).  SQL tables are modelled as Lean lists of
row structures; every SQL statement used by the modelled operations
(SELECT / INSERT ... ON CONFLICT DO UPDATE / DELETE / UPDATE) is translated
to an explicit list transformation.  ORDER BY ... DESC is modelled with
insertion sort on the sort key.  JavaScript truthiness of the `x || d`
idiom is modelled explicitly for strings and nullable integers.  The
in-memory userInfoCache is modelled as empty (cold cache), so every
operation reads the backing store.  Machine integers are modelled as Nat
with explicit reduction mod 2^32 where the SHA-256 code overflows.
-/

namespace MoonTV

/-- JavaScript `s || d` for strings: the empty string is falsy. -/
def jsOr (s d : String) : String := if s = "" then d else s

/-- JavaScript `v || undefined` (or `v || null`) for an optional integer
column: both null/undefined and 0 are falsy and collapse to none. -/
def jsOrNone (v : Option Int) : Option Int :=
  match v with
  | some n => if n = 0 then none else some n
  | none => none

/-- JavaScript truthiness test `v ? ... : undefined` for an optional string
column: null/undefined and the empty string are falsy. -/
def jsOptStr (v : Option String) : Option String :=
  match v with
  | some s => if s = "" then none else some s
  | none => none

/-! ### SHA-256

`hashPassword` in both backends computes
`crypto.subtle.digest('SHA-256', utf8(password))` and hex-encodes each byte
with `b.toString(16).padStart(2, '0')`.  The full algorithm is embedded
here over Nat with arithmetic reduced mod 2^32. -/

def w32 : Nat := 2 ^ 32

def add32 (a b : Nat) : Nat := (a + b) % w32

def rotr32 (x n : Nat) : Nat :=
  ((x >>> n) ||| (x <<< (32 - n))) % w32

def shr32 (x n : Nat) : Nat := x >>> n

def xor3 (a b c : Nat) : Nat := Nat.xor (Nat.xor a b) c

def ch (x y z : Nat) : Nat :=
  Nat.xor (Nat.land x y) (Nat.land ((w32 - 1) - x) z)

def maj (x y z : Nat) : Nat :=
  xor3 (Nat.land x y) (Nat.land x z) (Nat.land y z)

def bigSigma0 (x : Nat) : Nat := xor3 (rotr32 x 2) (rotr32 x 13) (rotr32 x 22)
def bigSigma1 (x : Nat) : Nat := xor3 (rotr32 x 6) (rotr32 x 11) (rotr32 x 25)
def smallSigma0 (x : Nat) : Nat := xor3 (rotr32 x 7) (rotr32 x 18) (shr32 x 3)
def smallSigma1 (x : Nat) : Nat := xor3 (rotr32 x 17) (rotr32 x 19) (shr32 x 10)

/-- SHA-256 round constants. -/
def K : List Nat :=
  [1116352408, 1899447441, 3049323471, 3921009573, 961987163,
   1508970993, 2453635748, 2870763221, 3624381080, 310598401,
   607225278, 1426881987, 1925078388, 2162078206, 2614888103,
   3248222580, 3835390401, 4022224774, 264347078, 604807628,
   770255983, 1249150122, 1555081692, 1996064986, 2554220882,
   2821834349, 2952996808, 3210313671, 3336571891, 3584528711,
   113926993, 338241895, 666307205, 773529912, 1294757372,
   1396182291, 1695183700, 1986661051, 2177026350, 2456956037,
   2730485921, 2820302411, 3259730800, 3345764771, 3516065817,
   3600352804, 4094571909, 275423344, 430227734, 506948616,
   659060556, 883997877, 958139571, 1322822218, 1537002063,
   1747873779, 1955562222, 2024104815, 2227730452, 2361852424,
   2428436474, 2756734187, 3204031479, 3329325298]

/-- SHA-256 initial hash value. -/
def H0 : List Nat :=
  [1779033703, 3144134277, 1013904242, 2773480762, 1359893119,
   2600822924, 528734635, 1541459225]

/-- UTF-8 encoding of a single character (what TextEncoder does). -/
def utf8Char (c : Char) : List Nat :=
  let n := c.toNat
  if n < 0x80 then [n]
  else if n < 0x800 then [0xC0 ||| (n >>> 6), 0x80 ||| (n &&& 0x3F)]
  else if n < 0x10000 then
    [0xE0 ||| (n >>> 12), 0x80 ||| ((n >>> 6) &&& 0x3F), 0x80 ||| (n &&& 0x3F)]
  else
    [0xF0 ||| (n >>> 18), 0x80 ||| ((n >>> 12) &&& 0x3F),
     0x80 ||| ((n >>> 6) &&& 0x3F), 0x80 ||| (n &&& 0x3F)]

/-- UTF-8 encoding of a string as a list of bytes. -/
def utf8Encode (s : String) : List Nat :=
  s.data.flatMap utf8Char

/-- SHA-256 message padding: the byte 128 and then zeros are appended,
followed by the message bit length as eight big-endian bytes, so that the
total length becomes a multiple of the 64-byte block size. -/
def padMessage (msg : List Nat) : List Nat :=
  let len := msg.length
  let bitLen := len * 8
  let padZeros := (55 + 64 - (len % 64)) % 64
  msg ++ [0x80] ++ List.replicate padZeros 0 ++
    [(bitLen >>> 56) % 256, (bitLen >>> 48) % 256, (bitLen >>> 40) % 256,
     (bitLen >>> 32) % 256, (bitLen >>> 24) % 256, (bitLen >>> 16) % 256,
     (bitLen >>> 8) % 256, bitLen % 256]

/-- Group a padded byte stream into 32-bit big-endian words. -/
def bytesToWords : List Nat → List Nat
  | a :: b :: c :: d :: rest => (((a * 256 + b) * 256 + c) * 256 + d) :: bytesToWords rest
  | _ => []

/-- Message schedule extension: run n more steps, keeping the schedule
reversed so the head is the most recently produced word. -/
def extendSched : Nat → List Nat → List Nat
  | 0, acc => acc
  | n + 1, acc =>
      let w := add32 (add32 (smallSigma1 (acc.getD 1 0)) (acc.getD 6 0))
                     (add32 (smallSigma0 (acc.getD 14 0)) (acc.getD 15 0))
      extendSched n (w :: acc)

/-- The eight SHA-256 working registers. -/
structure Regs where
  a : Nat
  b : Nat
  c : Nat
  d : Nat
  e : Nat
  f : Nat
  g : Nat
  h : Nat

/-- One SHA-256 compression round. -/
def round (r : Regs) (k w : Nat) : Regs :=
  let t1 := add32 (add32 r.h (bigSigma1 r.e)) (add32 (ch r.e r.f r.g) (add32 k w))
  let t2 := add32 (bigSigma0 r.a) (maj r.a r.b r.c)
  ⟨add32 t1 t2, r.a, r.b, r.c, add32 r.d t1, r.e, r.f, r.g⟩

/-- All 64 rounds, consuming the round constants and the schedule. -/
def rounds : Regs → List Nat → List Nat → Regs
  | r, k :: ks, w :: ws => rounds (round r k w) ks ws
  | r, _, _ => r

/-- Compress one 16-word block into the running hash state. -/
def compress (hs : List Nat) (block : List Nat) : List Nat :=
  match hs with
  | [h0, h1, h2, h3, h4, h5, h6, h7] =>
    let ws := (extendSched 48 block.reverse).reverse
    let r := rounds ⟨h0, h1, h2, h3, h4, h5, h6, h7⟩ K ws
    [add32 h0 r.a, add32 h1 r.b, add32 h2 r.c, add32 h3 r.d,
     add32 h4 r.e, add32 h5 r.f, add32 h6 r.g, add32 h7 r.h]
  | _ => hs

/-- Fold the compression function over all 16-word blocks. -/
def processBlocks : List Nat → List Nat → List Nat
  | hs, w0 :: w1 :: w2 :: w3 :: w4 :: w5 :: w6 :: w7 ::
        w8 :: w9 :: w10 :: w11 :: w12 :: w13 :: w14 :: w15 :: rest =>
      processBlocks
        (compress hs [w0, w1, w2, w3, w4, w5, w6, w7, w8, w9, w10, w11, w12, w13, w14, w15])
        rest
  | hs, _ => hs

/-- Serialize the eight hash words as 32 big-endian bytes. -/
def wordsToBytes : List Nat → List Nat
  | [] => []
  | w :: ws => (w >>> 24) % 256 :: (w >>> 16) % 256 :: (w >>> 8) % 256 :: w % 256 :: wordsToBytes ws

/-- Lowercase hexadecimal digit. -/
def hexDigit (n : Nat) : Char :=
  if n < 10 then Char.ofNat (48 + n) else Char.ofNat (87 + n)

/-- JavaScript `b.toString(16).padStart(2, '0')` for a byte. -/
def byteToHex (b : Nat) : String :=
  String.mk [hexDigit (b / 16), hexDigit (b % 16)]

/-- JavaScript `arr.join('')`. -/
def joinAll : List String → String
  | [] => ""
  | s :: rest => s ++ joinAll rest

/-- Lowercase hex SHA-256 digest of the UTF-8 bytes of a string. -/
def sha256Hex (s : String) : String :=
  let bytes := utf8Encode s
  let words := bytesToWords (padMessage bytes)
  let digest := processBlocks H0 words
  joinAll ((wordsToBytes digest).map byteToHex)

/-- `hashPassword` of both storage backends. -/
def hashPassword (password : String) : String := sha256Hex password

example :
    sha256Hex "abc" = "ba7816bf8f01cfea414140de5dae2223b00361a396177a9cb410ff61f20015ad" := by
  decide

/-! ### Play records

`PlayRecord` is the application-level record type.  Its field names follow
the TypeScript object fields used by both backends; `cover`, `year` and
`search_title` are normalized with `x || ''` on both the write and the read
path, so they are modelled directly as strings; `new_episodes` is nullable
and only the D1 backend persists it. -/

structure PlayRecord where
  title : String
  source_name : String
  cover : String
  year : String
  index : Nat
  total_episodes : Nat
  play_time : Int
  total_time : Int
  save_time : Int
  search_title : String
  new_episodes : Option Int
deriving DecidableEq, Repr

/-- Row of the Postgres play_records table (schema section 2; it has no
new_episodes column). -/
structure PgPlayRow where
  username : String
  key : String
  title : String
  source_name : String
  cover : String
  year : String
  episode_index : Nat
  total_episodes : Nat
  play_time : Int
  total_time : Int
  save_time : Int
  search_title : String
deriving DecidableEq, Repr

/-- Row of the D1 play_records table, which also stores new_episodes. -/
structure D1PlayRow where
  username : String
  key : String
  title : String
  source_name : String
  cover : String
  year : String
  episode_index : Nat
  total_episodes : Nat
  play_time : Int
  total_time : Int
  save_time : Int
  search_title : String
  new_episodes : Option Int
deriving DecidableEq, Repr

/-- Generic model of `INSERT ... ON CONFLICT DO UPDATE`: when some row
matches the conflict predicate it is updated in place, otherwise the fresh
row is appended. -/
def upsertWith (p : α → Bool) (upd : α → α) (mk : α) (l : List α) : List α :=
  if l.any p then l.map (fun x => if p x then upd x else x) else l ++ [mk]

/-- The row written by `PostgresStorage.setPlayRecord` for (u, k, r). -/
def pgPlayRowOf (u k : String) (r : PlayRecord) : PgPlayRow :=
  { username := u
    key := k
    title := r.title
    source_name := r.source_name
    cover := jsOr r.cover ""
    year := jsOr r.year ""
    episode_index := r.index
    total_episodes := r.total_episodes
    play_time := r.play_time
    total_time := r.total_time
    save_time := r.save_time
    search_title := jsOr r.search_title "" }

/-- The row written by `D1Storage.setPlayRecord` for (u, k, r);
new_episodes is bound as `record.new_episodes || null`. -/
def d1PlayRowOf (u k : String) (r : PlayRecord) : D1PlayRow :=
  { username := u
    key := k
    title := r.title
    source_name := r.source_name
    cover := jsOr r.cover ""
    year := jsOr r.year ""
    episode_index := r.index
    total_episodes := r.total_episodes
    play_time := r.play_time
    total_time := r.total_time
    save_time := r.save_time
    search_title := jsOr r.search_title ""
    new_episodes := jsOrNone r.new_episodes }

/-- Conflict target (username, key) of the play_records primary key. -/
def pgPlayMatch (u k : String) (row : PgPlayRow) : Bool :=
  row.username = u && row.key = k

def d1PlayMatch (u k : String) (row : D1PlayRow) : Bool :=
  row.username = u && row.key = k

/-- `PostgresStorage.setPlayRecord`: upsert on (username, key), every listed
column overwritten with the new value. -/
def pgSetPlayRecord (tbl : List PgPlayRow) (u k : String) (r : PlayRecord) : List PgPlayRow :=
  upsertWith (pgPlayMatch u k) (fun _ => pgPlayRowOf u k r) (pgPlayRowOf u k r) tbl

/-- `D1Storage.setPlayRecord`. -/
def d1SetPlayRecord (tbl : List D1PlayRow) (u k : String) (r : PlayRecord) : List D1PlayRow :=
  upsertWith (d1PlayMatch u k) (fun _ => d1PlayRowOf u k r) (d1PlayRowOf u k r) tbl

/-- `PostgresStorage.rowToPlayRecord`; the row has no new_episodes column,
so the field comes back undefined. -/
def pgRowToPlayRecord (row : PgPlayRow) : PlayRecord :=
  { title := row.title
    source_name := row.source_name
    cover := jsOr row.cover ""
    year := jsOr row.year ""
    index := row.episode_index
    total_episodes := row.total_episodes
    play_time := row.play_time
    total_time := row.total_time
    save_time := row.save_time
    search_title := jsOr row.search_title ""
    new_episodes := none }

/-- `D1Storage.rowToPlayRecord`; new_episodes is `row.new_episodes || undefined`. -/
def d1RowToPlayRecord (row : D1PlayRow) : PlayRecord :=
  { title := row.title
    source_name := row.source_name
    cover := jsOr row.cover ""
    year := jsOr row.year ""
    index := row.episode_index
    total_episodes := row.total_episodes
    play_time := row.play_time
    total_time := row.total_time
    save_time := row.save_time
    search_title := jsOr row.search_title ""
    new_episodes := jsOrNone row.new_episodes }

/-- `PostgresStorage.getPlayRecord`: SELECT by (username, key). -/
def pgGetPlayRecord (tbl : List PgPlayRow) (u k : String) : Option PlayRecord :=
  (tbl.find? (pgPlayMatch u k)).map pgRowToPlayRecord

/-- `D1Storage.getPlayRecord`. -/
def d1GetPlayRecord (tbl : List D1PlayRow) (u k : String) : Option PlayRecord :=
  (tbl.find? (d1PlayMatch u k)).map d1RowToPlayRecord

/-! ### Generic upsert lemmas -/

theorem find?_map_upd (p : α → Bool) (upd : α → α) (l : List α)
    (hupd : ∀ x, p x = true → p (upd x) = true) :
    (l.map (fun x => if p x then upd x else x)).find? p = (l.find? p).map upd := by
  induction l with
  | nil => rfl
  | cons x xs ih =>
    by_cases hp : p x = true
    · simp [List.find?_cons, hp, hupd x hp]
    · have hx : p x = false := by simpa using hp
      simp [List.find?_cons, hx, ih]

theorem find?_upsertWith (p : α → Bool) (upd : α → α) (mk : α) (l : List α)
    (hupd : ∀ x, p x = true → p (upd x) = true) (hmk : p mk = true) :
    (upsertWith p upd mk l).find? p = some ((l.find? p).elim mk upd) := by
  unfold upsertWith
  by_cases h : l.any p = true
  · obtain ⟨x, hx, hpx⟩ := List.any_eq_true.mp h
    have hsome : l.find? p ≠ none := by
      intro hnone
      exact absurd hpx (by simpa using List.find?_eq_none.mp hnone x hx)
    obtain ⟨y, hy⟩ := Option.ne_none_iff_exists'.mp hsome
    rw [if_pos h, find?_map_upd p upd l hupd, hy]
    rfl
  · have hnone : l.find? p = none := by
      rw [List.find?_eq_none]
      intro x hx hpx
      exact h (List.any_eq_true.mpr ⟨x, hx, hpx⟩)
    rw [if_neg h, List.find?_append, hnone, List.find?_cons_of_pos _ hmk]
    rfl

/-- Membership in the result of an upsert comes from an old row (possibly
updated) or is the fresh row. -/
theorem mem_upsertWith (p : α → Bool) (upd : α → α) (mk : α) (l : List α) (x : α)
    (hx : x ∈ upsertWith p upd mk l) :
    x = mk ∨ ∃ y ∈ l, x = y ∨ (p y = true ∧ x = upd y) := by
  unfold upsertWith at hx
  by_cases h : l.any p = true
  · rw [if_pos h] at hx
    obtain ⟨y, hy, hxy⟩ := List.mem_map.mp hx
    by_cases hp : p y = true
    · exact Or.inr ⟨y, hy, Or.inr ⟨hp, by rw [← hxy, if_pos hp]⟩⟩
    · exact Or.inr ⟨y, hy, Or.inl (by rw [← hxy, if_neg hp])⟩
  · rw [if_neg h] at hx
    rcases List.mem_append.mp hx with hmem | hmem
    · exact Or.inr ⟨x, hmem, Or.inl rfl⟩
    · exact Or.inl (by simpa using hmem)

/-- Normalizing with the empty default is the identity on strings. -/
theorem jsOr_empty (s : String) : jsOr s "" = s := by
  unfold jsOr
  split
  · simp_all
  · rfl

/-- The falsy collapse on nullable integers is idempotent. -/
theorem jsOrNone_idem (v : Option Int) : jsOrNone (jsOrNone v) = jsOrNone v := by
  unfold jsOrNone
  match v with
  | none => rfl
  | some n =>
    by_cases h : n = 0
    · simp [h]
    · simp [h]

theorem pgPlayMatch_rowOf (u k : String) (r : PlayRecord) :
    pgPlayMatch u k (pgPlayRowOf u k r) = true := by
  simp [pgPlayMatch, pgPlayRowOf]

theorem d1PlayMatch_rowOf (u k : String) (r : PlayRecord) :
    d1PlayMatch u k (d1PlayRowOf u k r) = true := by
  simp [d1PlayMatch, d1PlayRowOf]

/-- Reading back the row written for r recovers r except for new_episodes. -/
theorem pgRowToPlayRecord_rowOf (u k : String) (r : PlayRecord) :
    pgRowToPlayRecord (pgPlayRowOf u k r) = { r with new_episodes := none } := by
  simp [pgRowToPlayRecord, pgPlayRowOf, jsOr_empty]

theorem d1RowToPlayRecord_rowOf (u k : String) (r : PlayRecord) :
    d1RowToPlayRecord (d1PlayRowOf u k r) = { r with new_episodes := jsOrNone r.new_episodes } := by
  simp [d1RowToPlayRecord, d1PlayRowOf, jsOr_empty, jsOrNone_idem]

theorem pgGet_pgSet (tbl : List PgPlayRow) (u k : String) (r : PlayRecord) :
    pgGetPlayRecord (pgSetPlayRecord tbl u k r) u k = some { r with new_episodes := none } := by
  unfold pgGetPlayRecord pgSetPlayRecord
  rw [find?_upsertWith _ _ _ _ (fun _ _ => pgPlayMatch_rowOf u k r) (pgPlayMatch_rowOf u k r)]
  cases tbl.find? (pgPlayMatch u k) <;>
    simp [Option.elim, pgRowToPlayRecord_rowOf]

theorem d1Get_d1Set (tbl : List D1PlayRow) (u k : String) (r : PlayRecord) :
    d1GetPlayRecord (d1SetPlayRecord tbl u k r) u k =
      some { r with new_episodes := jsOrNone r.new_episodes } := by
  unfold d1GetPlayRecord d1SetPlayRecord
  rw [find?_upsertWith _ _ _ _ (fun _ _ => d1PlayMatch_rowOf u k r) (d1PlayMatch_rowOf u k r)]
  cases tbl.find? (d1PlayMatch u k) <;>
    simp [Option.elim, d1RowToPlayRecord_rowOf]

/-- At most one row per (username, key): the primary-key invariant of the
play_records table. -/
def pgDistinctKeys (tbl : List PgPlayRow) : Prop :=
  List.Pairwise (fun a b => ¬(a.username = b.username ∧ a.key = b.key)) tbl

theorem pgDistinctKeys_set (tbl : List PgPlayRow) (u k : String) (r : PlayRecord)
    (h : pgDistinctKeys tbl) : pgDistinctKeys (pgSetPlayRecord tbl u k r) := by
  unfold pgSetPlayRecord upsertWith
  by_cases hany : tbl.any (pgPlayMatch u k) = true
  · rw [if_pos hany]
    refine List.Pairwise.map _ ?_ h
    intro a b hab hcontra
    apply hab
    have ha : (if pgPlayMatch u k a = true then pgPlayRowOf u k r else a).username = a.username ∧
              (if pgPlayMatch u k a = true then pgPlayRowOf u k r else a).key = a.key := by
      by_cases hpa : pgPlayMatch u k a = true
      · have := hpa
        simp only [pgPlayMatch, Bool.and_eq_true, decide_eq_true_eq] at this
        simp [if_pos hpa, pgPlayRowOf, this.1, this.2]
      · simp [if_neg hpa]
    have hb : (if pgPlayMatch u k b = true then pgPlayRowOf u k r else b).username = b.username ∧
              (if pgPlayMatch u k b = true then pgPlayRowOf u k r else b).key = b.key := by
      by_cases hpb : pgPlayMatch u k b = true
      · have := hpb
        simp only [pgPlayMatch, Bool.and_eq_true, decide_eq_true_eq] at this
        simp [if_pos hpb, pgPlayRowOf, this.1, this.2]
      · simp [if_neg hpb]
    exact ⟨by rw [← ha.1, ← hb.1, hcontra.1], by rw [← ha.2, ← hb.2, hcontra.2]⟩
  · rw [if_neg hany]
    unfold pgDistinctKeys
    rw [List.pairwise_append]
    refine ⟨h, List.pairwise_singleton _ _, ?_⟩
    intro a ha b hb hcontra
    have hpa : ¬(pgPlayMatch u k a = true) := fun hp => hany (List.any_eq_true.mpr ⟨a, ha, hp⟩)
    apply hpa
    have hbmk : b = pgPlayRowOf u k r := by simpa using hb
    simp only [pgPlayMatch, Bool.and_eq_true, decide_eq_true_eq]
    subst hbmk
    exact ⟨by simpa [pgPlayRowOf] using hcontra.1, by simpa [pgPlayRowOf] using hcontra.2⟩

/-- Concrete play record with a nonzero new_episodes value. -/
def sampleRecord : PlayRecord :=
  { title := "T"
    source_name := "S"
    cover := "c"
    year := "2024"
    index := 1
    total_episodes := 10
    play_time := 5
    total_time := 100
    save_time := 42
    search_title := "t"
    new_episodes := some 1 }

/-- C4 counterexample: the record written with a nonzero new_episodes value
is not returned verbatim by the Postgres backend, whose play_records table
has no new_episodes column. -/
theorem claim_C4_counterexample :
    pgGetPlayRecord (pgSetPlayRecord [] "u" "k" sampleRecord) "u" "k" ≠ some sampleRecord := by
  decide

/-- C4 (amended): at most one play record exists per (username, key) pair
(the primary-key invariant is preserved by setPlayRecord), and setPlayRecord
followed by getPlayRecord on the same (userName, key) returns the record
just written on every listed column; the new_episodes field, which the
Postgres backend does not persist, comes back absent.  A second
setPlayRecord on the same pair fully overwrites the listed columns of the
first. -/
theorem claim_C4 (tbl : List PgPlayRow) (u k : String) (r r1 : PlayRecord)
    (hpk : pgDistinctKeys tbl) :
    pgDistinctKeys (pgSetPlayRecord tbl u k r) ∧
    pgGetPlayRecord (pgSetPlayRecord tbl u k r) u k = some { r with new_episodes := none } ∧
    pgGetPlayRecord (pgSetPlayRecord (pgSetPlayRecord tbl u k r1) u k r) u k =
      some { r with new_episodes := none } := by
  exact ⟨pgDistinctKeys_set tbl u k r hpk, pgGet_pgSet tbl u k r,
    pgGet_pgSet (pgSetPlayRecord tbl u k r1) u k r⟩

theorem claim_C4_witness :
    pgDistinctKeys ([] : List PgPlayRow) ∧
    (pgDistinctKeys (pgSetPlayRecord [] "u" "k" sampleRecord) ∧
     pgGetPlayRecord (pgSetPlayRecord [] "u" "k" sampleRecord) "u" "k" =
       some { sampleRecord with new_episodes := none } ∧
     pgGetPlayRecord (pgSetPlayRecord (pgSetPlayRecord [] "u" "k" sampleRecord) "u" "k" sampleRecord) "u" "k" =
       some { sampleRecord with new_episodes := none }) :=
  ⟨List.Pairwise.nil, claim_C4 [] "u" "k" sampleRecord sampleRecord List.Pairwise.nil⟩

/-- C10 counterexample: for a record carrying new_episodes = 1, setPlayRecord
followed by getPlayRecord yields different PlayRecord values under D1Storage
and PostgresStorage. -/
theorem claim_C10_counterexample :
    d1GetPlayRecord (d1SetPlayRecord [] "u" "k" sampleRecord) "u" "k" ≠
      pgGetPlayRecord (pgSetPlayRecord [] "u" "k" sampleRecord) "u" "k" := by
  decide

/-- C10 (amended): the D1 and Postgres backends are observationally
equivalent for play records on every field except new_episodes: for every
userName, key and record, setPlayRecord followed by getPlayRecord yields the
same PlayRecord under D1Storage as under PostgresStorage once new_episodes
is erased; Postgres always returns new_episodes as absent, while D1 returns
the written value unless it was 0 or absent. -/
theorem claim_C10 (t1 : List PgPlayRow) (t2 : List D1PlayRow) (u k : String) (r : PlayRecord) :
    pgGetPlayRecord (pgSetPlayRecord t1 u k r) u k = some { r with new_episodes := none } ∧
    d1GetPlayRecord (d1SetPlayRecord t2 u k r) u k =
      some { r with new_episodes := jsOrNone r.new_episodes } ∧
    (pgGetPlayRecord (pgSetPlayRecord t1 u k r) u k).map (fun x => { x with new_episodes := none }) =
      (d1GetPlayRecord (d1SetPlayRecord t2 u k r) u k).map (fun x => { x with new_episodes := none }) := by
  refine ⟨pgGet_pgSet t1 u k r, d1Get_d1Set t2 u k r, ?_⟩
  rw [pgGet_pgSet t1 u k r, d1Get_d1Set t2 u k r]
  rfl

/-! ### Sorting and retention pruning

`ORDER BY f DESC` is modelled with insertion sort under the relation
`f b ≤ f a`.  Both retention policies (play records and search history)
delete the rows of one user whose key is not among the keys of the top m
rows by sort key; `pruneUser` captures that DELETE statement. -/

def descRel (f : α → Int) : α → α → Prop := fun a b => f b ≤ f a

instance (f : α → Int) : DecidableRel (descRel f) := fun a b => Int.decLe (f b) (f a)

instance (f : α → Int) : IsTotal α (descRel f) := ⟨fun a b => le_total (f b) (f a)⟩

instance (f : α → Int) : IsTrans α (descRel f) := ⟨fun _ _ _ h1 h2 => le_trans h2 h1⟩

/-- Model of `ORDER BY f DESC`. -/
def sortDescBy (f : α → Int) (l : List α) : List α :=
  List.insertionSort (descRel f) l

/-- Per-user primary-key invariant: no two rows share (user, key). -/
def keyDistinct (userOf keyOf : α → String) (tbl : List α) : Prop :=
  List.Pairwise (fun a b => ¬(userOf a = userOf b ∧ keyOf a = keyOf b)) tbl

/-- The keys selected by `SELECT key ... ORDER BY f DESC LIMIT m`. -/
def keptKeys (keyOf : α → String) (f : α → Int) (m : Nat) (rows : List α) : List String :=
  ((sortDescBy f rows).take m).map keyOf

/-- Model of `DELETE ... WHERE user = u AND key NOT IN (top m keys)`. -/
def pruneUser (userOf keyOf : α → String) (f : α → Int)
    (tbl : List α) (u : String) (m : Nat) : List α :=
  tbl.filter (fun r =>
    !(decide (userOf r = u) &&
      !(decide (keyOf r ∈ keptKeys keyOf f m (tbl.filter (fun x => decide (userOf x = u)))))))

theorem bool_keep (a b : Bool) : (a && !(a && !b)) = (b && a) := by
  cases a <;> cases b <;> rfl

/-- The user rows surviving the prune are, up to order, the top m rows of
the user by sort key. -/
theorem pruneUser_perm (userOf keyOf : α → String) (f : α → Int)
    (tbl : List α) (u : String) (m : Nat)
    (hpk : keyDistinct userOf keyOf tbl) :
    ((pruneUser userOf keyOf f tbl u m).filter (fun r => decide (userOf r = u))).Perm
      ((sortDescBy f (tbl.filter (fun r => decide (userOf r = u)))).take m) := by
  classical
  set urows := tbl.filter (fun r => decide (userOf r = u)) with hurows
  set sorted := sortDescBy f urows with hsorted
  set kept := keptKeys keyOf f m urows with hkept
  have hperm : sorted.Perm urows := List.perm_insertionSort _ _
  have hR : List.Pairwise (fun a b => ¬(userOf a = userOf b ∧ keyOf a = keyOf b)) sorted := by
    have h1 : List.Pairwise (fun a b => ¬(userOf a = userOf b ∧ keyOf a = keyOf b)) urows :=
      List.Pairwise.sublist (List.filter_sublist tbl) hpk
    exact (List.Perm.pairwise_iff (fun h hc => h ⟨hc.1.symm, hc.2.symm⟩) hperm).mpr h1
  have huser : ∀ x ∈ sorted, userOf x = u := by
    intro x hx
    have := (List.mem_filter.mp (hperm.mem_iff.mp hx)).2
    simpa using this
  have hstep1 :
      (pruneUser userOf keyOf f tbl u m).filter (fun r => decide (userOf r = u)) =
        urows.filter (fun r => decide (keyOf r ∈ kept)) := by
    unfold pruneUser
    rw [List.filter_filter, hurows, List.filter_filter]
    apply List.filter_congr
    intro x _
    exact bool_keep (decide (userOf x = u)) (decide (keyOf x ∈ kept))
  have hsplit : sorted.take m ++ sorted.drop m = sorted := List.take_append_drop m sorted
  have hsep : ∀ a ∈ sorted.take m, ∀ b ∈ sorted.drop m,
      ¬(userOf a = userOf b ∧ keyOf a = keyOf b) := by
    have := List.pairwise_append.mp (by rwa [hsplit])
    exact this.2.2
  have htake : (sorted.take m).filter (fun r => decide (keyOf r ∈ kept)) = sorted.take m := by
    rw [List.filter_eq_self]
    intro x hx
    simp only [decide_eq_true_eq]
    exact List.mem_map_of_mem keyOf hx
  have hdrop : (sorted.drop m).filter (fun r => decide (keyOf r ∈ kept)) = [] := by
    rw [List.filter_eq_nil_iff]
    intro x hx hmem
    simp only [decide_eq_true_eq] at hmem
    obtain ⟨y, hy, hyx⟩ := List.mem_map.mp hmem
    refine hsep y hy x hx ⟨?_, hyx⟩
    rw [huser y (List.mem_of_mem_take hy), huser x (List.mem_of_mem_drop hx)]
  have h3 : sorted.filter (fun r => decide (keyOf r ∈ kept)) = sorted.take m := by
    conv_lhs => rw [← hsplit]
    rw [List.filter_append, htake, hdrop, List.append_nil]
  have h4 : (urows.filter (fun r => decide (keyOf r ∈ kept))).Perm
      (sorted.filter (fun r => decide (keyOf r ∈ kept))) :=
    (List.Perm.filter _ hperm).symm
  rw [hstep1]
  rw [h3] at h4
  exact h4

/-- Rows of other users survive the prune. -/
theorem pruneUser_mem_of_ne (userOf keyOf : α → String) (f : α → Int)
    (tbl : List α) (u : String) (m : Nat) :
    ∀ r ∈ tbl, userOf r ≠ u → r ∈ pruneUser userOf keyOf f tbl u m := by
  intro r hr hne
  unfold pruneUser
  rw [List.mem_filter]
  refine ⟨hr, ?_⟩
  simp [hne]

/-- The prune never adds rows. -/
theorem pruneUser_subset (userOf keyOf : α → String) (f : α → Int)
    (tbl : List α) (u : String) (m : Nat) :
    ∀ r ∈ pruneUser userOf keyOf f tbl u m, r ∈ tbl := by
  intro r hr
  exact List.mem_of_mem_filter hr

/-- Every row of the user deleted by the prune has a sort key no greater
than every row of the user that survives. -/
theorem pruneUser_dominance (userOf keyOf : α → String) (f : α → Int)
    (tbl : List α) (u : String) (m : Nat)
    (hpk : keyDistinct userOf keyOf tbl) :
    ∀ d ∈ tbl, userOf d = u → d ∉ pruneUser userOf keyOf f tbl u m →
      ∀ r ∈ pruneUser userOf keyOf f tbl u m, userOf r = u → f d ≤ f r := by
  classical
  set urows := tbl.filter (fun r => decide (userOf r = u)) with hurows
  set sorted := sortDescBy f urows with hsorted
  set kept := keptKeys keyOf f m urows with hkept
  have hperm : sorted.Perm urows := List.perm_insertionSort _ _
  have hsortedrel : List.Sorted (descRel f) sorted := List.sorted_insertionSort _ _
  have hsplit : sorted.take m ++ sorted.drop m = sorted := List.take_append_drop m sorted
  have hR : List.Pairwise (fun a b => ¬(userOf a = userOf b ∧ keyOf a = keyOf b)) sorted := by
    have h1 : List.Pairwise (fun a b => ¬(userOf a = userOf b ∧ keyOf a = keyOf b)) urows :=
      List.Pairwise.sublist (List.filter_sublist tbl) hpk
    exact (List.Perm.pairwise_iff (fun h hc => h ⟨hc.1.symm, hc.2.symm⟩) hperm).mpr h1
  have hsep : ∀ a ∈ sorted.take m, ∀ b ∈ sorted.drop m,
      ¬(userOf a = userOf b ∧ keyOf a = keyOf b) := by
    have := List.pairwise_append.mp (by rwa [hsplit])
    exact this.2.2
  have huser : ∀ x ∈ sorted, userOf x = u := by
    intro x hx
    have := (List.mem_filter.mp (hperm.mem_iff.mp hx)).2
    simpa using this
  intro d hd hdu hdel r hr hru
  have hdmem : d ∈ sorted := by
    apply hperm.mem_iff.mpr
    rw [hurows, List.mem_filter]
    exact ⟨hd, by simp [hdu]⟩
  have hdnk : keyOf d ∉ kept := by
    intro hcontra
    apply hdel
    unfold pruneUser
    rw [List.mem_filter]
    refine ⟨hd, ?_⟩
    rw [← hurows, ← hkept]
    simp [hdu, hcontra]
  have hddrop : d ∈ sorted.drop m := by
    rcases List.mem_append.mp (by rw [hsplit]; exact hdmem) with h | h
    · exact absurd (List.mem_map_of_mem keyOf h) hdnk
    · exact h
  have hrk : keyOf r ∈ kept := by
    have h2 := (List.mem_filter.mp hr).2
    rw [← hurows, ← hkept] at h2
    by_contra hnk
    simp [hru, hnk] at h2
  have hrmem : r ∈ sorted := by
    apply hperm.mem_iff.mpr
    rw [hurows, List.mem_filter]
    exact ⟨List.mem_of_mem_filter hr, by simp [hru]⟩
  have hrtake : r ∈ sorted.take m := by
    rcases List.mem_append.mp (by rw [hsplit]; exact hrmem) with h | h
    · exact h
    · obtain ⟨y, hy, hyx⟩ := List.mem_map.mp hrk
      exact absurd ⟨by rw [huser y (List.mem_of_mem_take hy), hru], hyx⟩ (hsep y hy r h)
  exact List.Sorted.rel_of_mem_take_of_mem_drop hsortedrel hrtake hddrop

/-! ### Play record retention (cleanupOldPlayRecords)

The backend reads MAX_PLAY_RECORDS_PER_USER from the environment (default
100), leaves the table alone while the user has at most maxRecords + 10
rows, and otherwise deletes the user rows whose key is not among the top
maxRecords keys by save_time. -/

def cleanupOldPlayRecords (tbl : List PgPlayRow) (u : String) (maxEnv : Option Nat) :
    List PgPlayRow :=
  if (tbl.filter (fun r => decide (r.username = u))).length ≤ maxEnv.getD 100 + 10 then tbl
  else pruneUser (fun r => r.username) (fun r => r.key) (fun r => r.save_time)
    tbl u (maxEnv.getD 100)

/-- C2: for every user, cleanupOldPlayRecords leaves the play records
unchanged when the user count is at most maxRecords + 10 (maxRecords
defaulting to 100 when the environment variable is unset), and otherwise
deletes records oldest save_time first so that exactly maxRecords records
remain for the user, each deleted record having save_time at most that of
each remaining one, while records of other users are untouched. -/
theorem claim_C2 (tbl : List PgPlayRow) (u : String) (maxEnv : Option Nat)
    (hpk : pgDistinctKeys tbl) :
    ((tbl.filter (fun r => decide (r.username = u))).length ≤ maxEnv.getD 100 + 10 →
      cleanupOldPlayRecords tbl u maxEnv = tbl) ∧
    (maxEnv.getD 100 + 10 < (tbl.filter (fun r => decide (r.username = u))).length →
      ((cleanupOldPlayRecords tbl u maxEnv).filter (fun r => decide (r.username = u))).length
          = maxEnv.getD 100 ∧
      (∀ d ∈ tbl, d.username = u → d ∉ cleanupOldPlayRecords tbl u maxEnv →
        ∀ r ∈ cleanupOldPlayRecords tbl u maxEnv, r.username = u →
          d.save_time ≤ r.save_time) ∧
      (∀ r ∈ cleanupOldPlayRecords tbl u maxEnv, r ∈ tbl) ∧
      (∀ r ∈ tbl, r.username ≠ u → r ∈ cleanupOldPlayRecords tbl u maxEnv)) := by
  constructor
  · intro h
    unfold cleanupOldPlayRecords
    rw [if_pos h]
  · intro h
    have hneg : ¬((tbl.filter (fun r => decide (r.username = u))).length ≤ maxEnv.getD 100 + 10) :=
      Nat.not_le_of_lt h
    have hkd : keyDistinct (fun r : PgPlayRow => r.username) (fun r => r.key) tbl := hpk
    have hcleanup : cleanupOldPlayRecords tbl u maxEnv =
        pruneUser (fun r => r.username) (fun r => r.key) (fun r => r.save_time)
          tbl u (maxEnv.getD 100) := by
      unfold cleanupOldPlayRecords
      rw [if_neg hneg]
    refine ⟨?_, ?_, ?_, ?_⟩
    · rw [hcleanup]
      have hperm := pruneUser_perm (fun r => r.username) (fun r => r.key)
        (fun r => r.save_time) tbl u (maxEnv.getD 100) hkd
      rw [hperm.length_eq, List.length_take]
      have hlen : (sortDescBy (fun r : PgPlayRow => r.save_time)
          (tbl.filter (fun r => decide (r.username = u)))).length
          = (tbl.filter (fun r => decide (r.username = u))).length :=
        (List.perm_insertionSort _ _).length_eq
      rw [hlen]
      omega
    · rw [hcleanup]
      exact pruneUser_dominance (fun r => r.username) (fun r => r.key)
        (fun r => r.save_time) tbl u (maxEnv.getD 100) hkd
    · rw [hcleanup]
      exact pruneUser_subset (fun r => r.username) (fun r => r.key)
        (fun r => r.save_time) tbl u (maxEnv.getD 100)
    · rw [hcleanup]
      exact pruneUser_mem_of_ne (fun r => r.username) (fun r => r.key)
        (fun r => r.save_time) tbl u (maxEnv.getD 100)

/-- Concrete table of 13 rows for one user, used to exercise the deletion
branch of the retention policy with maxRecords = 2. -/
def mkCleanupRow (i : Nat) : PgPlayRow :=
  { username := "u"
    key := toString i
    title := "t"
    source_name := "s"
    cover := ""
    year := ""
    episode_index := 0
    total_episodes := 0
    play_time := 0
    total_time := 0
    save_time := Int.ofNat i
    search_title := "" }

def cleanupWitnessTbl : List PgPlayRow := (List.range 13).map mkCleanupRow

theorem claim_C2_witness :
    pgDistinctKeys cleanupWitnessTbl ∧
    ((cleanupOldPlayRecords cleanupWitnessTbl "u" (some 2)).filter
      (fun r => decide (r.username = "u"))).length = 2 :=
  ⟨by unfold pgDistinctKeys; decide, ((claim_C2 cleanupWitnessTbl "u" (some 2)
    (by unfold pgDistinctKeys; decide)).2 (by decide)).1⟩

/-! ### Users table

Row of the users table (schema section 1), the USERNAME / PASSWORD
environment variables, and the user-facing operations of both backends.
The in-memory userInfoCache is modelled as empty. -/

structure UserRow where
  username : String
  password_hash : String
  role : String
  banned : Nat
  tags : Option String
  oidc_sub : Option String
  enabled_apis : Option String
  created_at : Int
  playrecord_migrated : Nat
  favorite_migrated : Nat
  skip_migrated : Nat
  last_movie_request_time : Option Int
  email : Option String
  email_notifications : Nat
deriving DecidableEq, Repr

/-- The USERNAME and PASSWORD environment variables (none when unset). -/
structure Env where
  username : Option String
  password : Option String
deriving DecidableEq, Repr

/-- `SELECT * FROM users WHERE username = ?` (first match). -/
def findUser (users : List UserRow) (userName : String) : Option UserRow :=
  users.find? (fun u => decide (u.username = userName))

/-- `verifyUser` of both backends: environment-owner bypass, then a lookup
guarded by banned = 0, then an SHA-256 comparison guarded by a truthiness
check on the stored hash. -/
def verifyUser (env : Env) (users : List UserRow) (userName password : String) : Bool :=
  if env.username = some userName && env.password = some password then true
  else
    match users.find? (fun u => decide (u.username = userName) && decide (u.banned = 0)) with
    | none => false
    | some u =>
        if u.password_hash = "" then false
        else decide (u.password_hash = hashPassword password)

/-- `verifyUserV2`: plain lookup with no banned filter, then hash compare. -/
def verifyUserV2 (users : List UserRow) (userName password : String) : Bool :=
  match findUser users userName with
  | none => false
  | some u => decide (u.password_hash = hashPassword password)

/-- The user-info object assembled by getUserInfoV2 from a stored row. -/
structure UserInfo where
  role : String
  banned : Bool
  tags : Option String
  oidcSub : Option String
  enabledApis : Option String
  created_at : Int
  playrecord_migrated : Bool
  favorite_migrated : Bool
  skip_migrated : Bool
  last_movie_request_time : Option Int
  email : Option String
  emailNotifications : Bool
deriving DecidableEq, Repr

/-- Conversion of a stored row to the user-info object; tags and
enabled_apis pass through the JSON string under a truthiness test. -/
def userInfoOfRow (u : UserRow) : UserInfo :=
  { role := u.role
    banned := decide (u.banned = 1)
    tags := jsOptStr u.tags
    oidcSub := u.oidc_sub
    enabledApis := jsOptStr u.enabled_apis
    created_at := u.created_at
    playrecord_migrated := decide (u.playrecord_migrated = 1)
    favorite_migrated := decide (u.favorite_migrated = 1)
    skip_migrated := decide (u.skip_migrated = 1)
    last_movie_request_time := u.last_movie_request_time
    email := u.email
    emailNotifications := decide (u.email_notifications = 1) }

/-- The synthetic owner row inserted by getUserInfoV2 when the
environment-configured owner has no stored record; unlisted columns take
their schema defaults. -/
def ownerRow (userName : String) (now : Int) : UserRow :=
  { username := userName
    password_hash := ""
    role := "owner"
    banned := 0
    tags := none
    oidc_sub := none
    enabled_apis := none
    created_at := now
    playrecord_migrated := 1
    favorite_migrated := 1
    skip_migrated := 1
    last_movie_request_time := none
    email := none
    email_notifications := 1 }

/-- The owner-info literal returned on that path; fields the literal does
not set are undefined. -/
def ownerDefaultInfo (now : Int) : UserInfo :=
  { role := "owner"
    banned := false
    tags := none
    oidcSub := none
    enabledApis := none
    created_at := now
    playrecord_migrated := true
    favorite_migrated := true
    skip_migrated := true
    last_movie_request_time := none
    email := none
    emailNotifications := false }

/-- `getUserInfoV2` (cold cache): read the row if present; otherwise, for
the environment-configured owner, insert a synthetic owner row and return
the default owner info; otherwise null.  Returns the info and the possibly
extended users table. -/
def getUserInfoV2 (env : Env) (now : Int) (users : List UserRow) (userName : String) :
    Option UserInfo × List UserRow :=
  match findUser users userName with
  | some u => (some (userInfoOfRow u), users)
  | none =>
      if env.username = some userName then
        (some (ownerDefaultInfo now), users ++ [ownerRow userName now])
      else (none, users)

/-- Entry of the user list returned by getUserListV2. -/
structure UserListEntry where
  username : String
  role : String
  banned : Bool
  tags : Option String
  oidcSub : Option String
  enabledApis : Option String
  created_at : Int
deriving DecidableEq, Repr

def entryOfRow (u : UserRow) : UserListEntry :=
  { username := u.username
    role := u.role
    banned := decide (u.banned = 1)
    tags := jsOptStr u.tags
    oidcSub := u.oidc_sub
    enabledApis := jsOptStr u.enabled_apis
    created_at := u.created_at }

/-- The entry pushed first for the owner on the first page; absent info
fields collapse under `x || default`. -/
def ownerEntry (o : String) (info : Option UserInfo) : UserListEntry :=
  { username := o
    role := "owner"
    banned := match info with | some i => i.banned | none => false
    tags := match info with | some i => i.tags | none => none
    oidcSub := match info with | some i => i.oidcSub | none => none
    enabledApis := match info with | some i => i.enabledApis | none => none
    created_at := match info with | some i => i.created_at | none => 0 }

/-- `ownerInDatabase`: the info exists and its created_at is nonzero. -/
def ownerInDb (info : Option UserInfo) : Bool :=
  match info with
  | some i => decide (i.created_at ≠ 0)
  | none => false

/-- The offset / limit adjustment getUserListV2 applies when the owner is
reported absent: the first page reserves one slot, later pages shift the
offset back by one. -/
def adjustedWindow (offset limit : Nat) (adjust : Bool) : Nat × Nat :=
  if adjust then
    if offset = 0 then (offset, limit - 1) else (offset - 1, limit)
  else (offset, limit)

/-- `getUserListV2`: count, owner probe (which may insert the synthetic
owner row), window adjustment, page query ordered by created_at DESC, owner
pushed first on the first page, and the owner row skipped in the loop. -/
def getUserListV2 (env : Env) (now : Int) (users : List UserRow)
    (offset limit : Nat) (ownerUsername : Option String) : List UserListEntry × Int :=
  let ow := jsOptStr ownerUsername
  let infoDb := match ow with
    | some o => getUserInfoV2 env now users o
    | none => (none, users)
  let adjust := ow.isSome && !(ownerInDb infoDb.1)
  let total : Int := (users.length : Int) + (if adjust then 1 else 0)
  let window := adjustedWindow offset limit adjust
  let page := ((sortDescBy (fun u : UserRow => u.created_at) infoDb.2).drop window.1).take window.2
  let headEntries := match ow with
    | some o => if offset = 0 then [ownerEntry o infoDb.1] else []
    | none => []
  let rest := page.filterMap (fun u => match ow with
    | some o => if u.username = o then none else some (entryOfRow u)
    | none => some (entryOfRow u))
  (headEntries ++ rest, total)


theorem jsOptStr_some (s : String) (h : s ≠ "") : jsOptStr (some s) = some s := by
  simp [jsOptStr, h]

theorem adjustedWindow_snd_le (offset limit : Nat) (adj : Bool) :
    (adjustedWindow offset limit adj).2 ≤ limit := by
  unfold adjustedWindow
  cases adj
  · simp
  · by_cases hoff : offset = 0
    · rw [if_pos rfl, if_pos hoff]
      exact Nat.sub_le limit 1
    · rw [if_pos rfl, if_neg hoff]

/-- Concrete user row for the C1 scenario. -/
def cUserRow (name role : String) (created : Int) : UserRow :=
  { username := name
    password_hash := ""
    role := role
    banned := 0
    tags := none
    oidc_sub := none
    enabled_apis := none
    created_at := created
    playrecord_migrated := 1
    favorite_migrated := 1
    skip_migrated := 1
    last_movie_request_time := none
    email := none
    email_notifications := 1 }

/-- C1 counterexample: with the owner stored in the table (created_at = 1)
but outside the first page window (a later user has created_at = 2), the
first page for limit = 1 contains 2 entries, exceeding the limit. -/
theorem claim_C1_counterexample :
    ((getUserListV2 ⟨none, none⟩ 0
        [cUserRow "owner" "owner" 1, cUserRow "alice" "user" 2]
        0 1 (some "owner")).1).length = 2 := by
  decide

/-- C1 (amended): for every offset, limit at least 1 and owner username,
getUserListV2 places the site owner as the first entry of the first page
regardless of backing-store order; the offset/limit arithmetic is adjusted
(by exactly one) only when the owner record does not exist in the backing
store; pages with nonzero offset contain at most limit users; the first
page contains at most limit + 1 users, and at most limit when the owner is
reported absent from the backing store.  Rows are assumed to carry nonzero
created_at timestamps, as every row created by the code does. -/
theorem claim_C1 (env : Env) (now : Int) (users : List UserRow) (offset limit : Nat) (o : String)
    (hlim : 0 < limit) (ho : o ≠ "") (hnz : ∀ u ∈ users, u.created_at ≠ 0) :
    ((getUserListV2 env now users 0 limit (some o)).1.head?.map (fun e => e.username) = some o) ∧
    (ownerInDb (getUserInfoV2 env now users o).1 = false → findUser users o = none) ∧
    (0 < offset → (getUserListV2 env now users offset limit (some o)).1.length ≤ limit) ∧
    ((getUserListV2 env now users 0 limit (some o)).1.length ≤ limit + 1) ∧
    (ownerInDb (getUserInfoV2 env now users o).1 = false →
      (getUserListV2 env now users 0 limit (some o)).1.length ≤ limit) := by
  have how : jsOptStr (some o) = some o := jsOptStr_some o ho
  have key : ∀ (l : List UserRow) (w1 w2 : Nat),
      ((((sortDescBy (fun u : UserRow => u.created_at) l).drop w1).take w2).filterMap
        (fun u => if u.username = o then none else some (entryOfRow u))).length ≤ w2 :=
    fun l w1 w2 => le_trans (List.length_filterMap_le _ _) (List.length_take_le _ _)
  refine ⟨?_, ?_, ?_, ?_, ?_⟩
  · simp only [getUserListV2, how]
    simp [ownerEntry]
  · intro hfalse
    rcases hfind : findUser users o with _ | u
    · rfl
    · exfalso
      have hu : u ∈ users := List.mem_of_find?_eq_some (by simpa [findUser] using hfind)
      have hnz1 := hnz u hu
      unfold getUserInfoV2 at hfalse
      rw [hfind] at hfalse
      simp [ownerInDb, userInfoOfRow, hnz1] at hfalse
  · intro hoff
    have hne : ¬(offset = 0) := Nat.pos_iff_ne_zero.mp hoff
    simp only [getUserListV2, how]
    simp only [if_neg hne, List.nil_append]
    exact le_trans (key _ _ _) (adjustedWindow_snd_le offset limit _)
  · simp only [getUserListV2, how]
    simp only [if_true, List.singleton_append, List.length_cons]
    have h1 := key (getUserInfoV2 env now users o).2
      (adjustedWindow 0 limit
        ((some o).isSome && !(ownerInDb (getUserInfoV2 env now users o).1))).1
      (adjustedWindow 0 limit
        ((some o).isSome && !(ownerInDb (getUserInfoV2 env now users o).1))).2
    have h2 := adjustedWindow_snd_le 0 limit
      ((some o).isSome && !(ownerInDb (getUserInfoV2 env now users o).1))
    omega
  · intro hfalse
    simp only [getUserListV2, how, hfalse]
    simp only [if_true, List.singleton_append, List.length_cons]
    have h1 := key (getUserInfoV2 env now users o).2
      (adjustedWindow 0 limit ((some o).isSome && !false)).1
      (adjustedWindow 0 limit ((some o).isSome && !false)).2
    have h2 : (adjustedWindow 0 limit ((some o).isSome && !false)).2 = limit - 1 := by
      simp [adjustedWindow]
    omega


theorem claim_C1_witness :
    (0 < 3 ∧ "owner" ≠ "" ∧
      ∀ u ∈ [cUserRow "owner" "owner" 1], u.created_at ≠ 0) ∧
    ((getUserListV2 ⟨none, none⟩ 1 [cUserRow "owner" "owner" 1] 0 3 (some "owner")).1.head?.map
      (fun e => e.username) = some "owner") :=
  ⟨⟨by decide, by decide, by decide⟩,
   (claim_C1 ⟨none, none⟩ 1 [cUserRow "owner" "owner" 1] 5 3 "owner"
     (by decide) (by decide) (by decide)).1⟩

/-! ### Whole-database cascade delete (C5)

The Postgres schema declares ON DELETE CASCADE foreign keys from every
per-user entity table to users(username); deleteUserV2 issues a single
DELETE on users and relies on the cascade. -/

structure FavRow where
  username : String
  key : String
  source_name : String
  total_episodes : Nat
  title : String
  year : String
  cover : String
  save_time : Int
  search_title : String
  origin : Option String
  is_completed : Nat
  vod_remarks : Option String
deriving DecidableEq, Repr

structure SearchRow where
  username : String
  keyword : String
  timestamp : Int
deriving DecidableEq, Repr

structure SkipRow where
  username : String
  key : String
  enable : Nat
  intro_time : Int
  outro_time : Int
deriving DecidableEq, Repr

structure DanmakuRow where
  username : String
  rules : String
deriving DecidableEq, Repr

structure NotifRow where
  id : String
  username : String
  type : String
  title : String
  message : String
  timestamp : Int
  read : Nat
  metadata : Option String
deriving DecidableEq, Repr

structure UserMovieRequestRow where
  username : String
  request_id : String
deriving DecidableEq, Repr

structure FavCheckRow where
  username : String
  last_check_time : Int
deriving DecidableEq, Repr

/-- The tables holding per-user rows reachable from users(username) via
ON DELETE CASCADE, plus the users table itself. -/
structure Database where
  users : List UserRow
  play_records : List PgPlayRow
  favorites : List FavRow
  search_history : List SearchRow
  skip_configs : List SkipRow
  danmaku_filter_configs : List DanmakuRow
  notifications : List NotifRow
  user_movie_requests : List UserMovieRequestRow
  favorite_check_times : List FavCheckRow
deriving Repr

/-- `deleteUserV2`: DELETE FROM users WHERE username = ?, with the schema
cascade removing the rows of that user from every child table. -/
def deleteUserV2 (db : Database) (userName : String) : Database :=
  { users := db.users.filter (fun r => decide (r.username ≠ userName))
    play_records := db.play_records.filter (fun r => decide (r.username ≠ userName))
    favorites := db.favorites.filter (fun r => decide (r.username ≠ userName))
    search_history := db.search_history.filter (fun r => decide (r.username ≠ userName))
    skip_configs := db.skip_configs.filter (fun r => decide (r.username ≠ userName))
    danmaku_filter_configs :=
      db.danmaku_filter_configs.filter (fun r => decide (r.username ≠ userName))
    notifications := db.notifications.filter (fun r => decide (r.username ≠ userName))
    user_movie_requests :=
      db.user_movie_requests.filter (fun r => decide (r.username ≠ userName))
    favorite_check_times :=
      db.favorite_check_times.filter (fun r => decide (r.username ≠ userName)) }

/-- C5: after deleteUserV2(userName), no rows owned by that user remain in
any entity table (play records, favorites, search history, skip configs,
danmaku filter configs, notifications), while rows owned by every other
user are exactly preserved. -/
theorem claim_C5 (db : Database) (userName : String) :
    (∀ r : PgPlayRow, r ∈ (deleteUserV2 db userName).play_records ↔
      (r ∈ db.play_records ∧ r.username ≠ userName)) ∧
    (∀ r : FavRow, r ∈ (deleteUserV2 db userName).favorites ↔
      (r ∈ db.favorites ∧ r.username ≠ userName)) ∧
    (∀ r : SearchRow, r ∈ (deleteUserV2 db userName).search_history ↔
      (r ∈ db.search_history ∧ r.username ≠ userName)) ∧
    (∀ r : SkipRow, r ∈ (deleteUserV2 db userName).skip_configs ↔
      (r ∈ db.skip_configs ∧ r.username ≠ userName)) ∧
    (∀ r : DanmakuRow, r ∈ (deleteUserV2 db userName).danmaku_filter_configs ↔
      (r ∈ db.danmaku_filter_configs ∧ r.username ≠ userName)) ∧
    (∀ r : NotifRow, r ∈ (deleteUserV2 db userName).notifications ↔
      (r ∈ db.notifications ∧ r.username ≠ userName)) ∧
    (∀ r : UserRow, r ∈ (deleteUserV2 db userName).users ↔
      (r ∈ db.users ∧ r.username ≠ userName)) := by
  refine ⟨?_, ?_, ?_, ?_, ?_, ?_, ?_⟩ <;>
    intro r <;> simp [deleteUserV2, List.mem_filter]

/-! ### Password verification (C3 and C9)

The digest has 64 hexadecimal characters, so it can never equal an empty
stored hash; this makes the truthiness guard on the stored hash redundant
for the hash-equality branch. -/

theorem compress_length (hs block : List Nat) : (compress hs block).length = hs.length := by
  unfold compress
  split
  · simp
  · rfl

theorem processBlocks_length (hs ws : List Nat) :
    (processBlocks hs ws).length = hs.length := by
  induction hs, ws using processBlocks.induct with
  | case1 hs w0 w1 w2 w3 w4 w5 w6 w7 w8 w9 w10 w11 w12 w13 w14 w15 rest ih =>
      rw [processBlocks, ih, compress_length]
  | case2 hs ws h => rw [processBlocks]; exact h

theorem wordsToBytes_length (ws : List Nat) : (wordsToBytes ws).length = 4 * ws.length := by
  induction ws with
  | nil => rfl
  | cons w ws ih =>
      rw [wordsToBytes]
      simp [ih]
      ring

theorem byteToHex_length (b : Nat) : (byteToHex b).length = 2 := rfl

theorem joinAll_length (l : List String) :
    (joinAll l).length = (l.map String.length).sum := by
  induction l with
  | nil => rfl
  | cons s rest ih => rw [joinAll, String.length_append, ih, List.map_cons, List.sum_cons]

theorem sha256Hex_length (s : String) : (sha256Hex s).length = 64 := by
  unfold sha256Hex
  rw [joinAll_length, List.map_map]
  have hmap : ((wordsToBytes (processBlocks H0 (bytesToWords (padMessage (utf8Encode s))))).map
      (String.length ∘ byteToHex)) =
      (wordsToBytes (processBlocks H0 (bytesToWords (padMessage (utf8Encode s))))).map
        (fun _ => 2) := by
    apply List.map_congr_left
    intro b _
    exact byteToHex_length b
  rw [hmap, List.map_const', List.sum_replicate, smul_eq_mul,
    wordsToBytes_length, processBlocks_length]
  rfl

theorem hashPassword_ne_empty (password : String) : hashPassword password ≠ "" := by
  intro h
  have hl := sha256Hex_length password
  rw [hashPassword] at h
  rw [h] at hl
  simp at hl

/-- Primary-key invariant of the users table. -/
def distinctUsernames (users : List UserRow) : Prop :=
  List.Pairwise (fun a b => a.username ≠ b.username) users

/-- The banned-filtered lookup agrees with the plain lookup followed by a
banned test, provided usernames are unique. -/
theorem find?_banned_eq (users : List UserRow) (userName : String)
    (hdu : distinctUsernames users) :
    users.find? (fun u => decide (u.username = userName) && decide (u.banned = 0)) =
      (match findUser users userName with
       | some row => if row.banned = 0 then some row else none
       | none => none) := by
  induction users with
  | nil => rfl
  | cons x xs ih =>
      have hdu' : distinctUsernames xs := (List.pairwise_cons.mp hdu).2
      have hhead : ∀ y ∈ xs, x.username ≠ y.username := (List.pairwise_cons.mp hdu).1
      by_cases hx : x.username = userName
      · by_cases hb : x.banned = 0
        · simp [findUser, List.find?_cons, hx, hb]
        · have hnone : xs.find?
              (fun u => decide (u.username = userName) && decide (u.banned = 0)) = none := by
            rw [List.find?_eq_none]
            intro y hy hcontra
            simp only [Bool.and_eq_true, decide_eq_true_eq] at hcontra
            exact hhead y hy (by rw [hx]; exact hcontra.1.symm)
          simp [findUser, List.find?_cons, hx, hb, hnone]
      · have h1 : decide (x.username = userName) = false := by simp [hx]
        simp only [findUser, List.find?_cons, h1, Bool.false_and]
        exact ih hdu'

/-- Banned user whose stored hash is the digest of "pw". -/
def bannedBob : UserRow :=
  { cUserRow "bob" "user" 3 with banned := 1, password_hash := hashPassword "pw" }

/-- C3 counterexample: a banned user with the correct password is rejected
by verifyUser even though the stored hash equals the digest of the given
password, and getUserInfoV2 returns the stored role for the
environment-configured owner when a stored row exists with another role. -/
theorem claim_C3_counterexample :
    (verifyUser ⟨some "root", some "rootpw"⟩ [bannedBob] "bob" "pw" = false ∧
      bannedBob.password_hash = hashPassword "pw") ∧
    ((getUserInfoV2 ⟨some "root", some "rootpw"⟩ 9 [cUserRow "root" "user" 5] "root").1.map
        (fun i => i.role) = some "user" ∧ "user" ≠ "owner") := by
  refine ⟨⟨by decide, rfl⟩, ⟨by decide, by decide⟩⟩

/-- C3 (amended): verifyUser returns true when (userName, password) equals
the environment-configured site-owner credentials without consulting the
stored hash; otherwise it returns true iff a stored row for that user
exists, is not banned, and its password_hash equals the lowercase hex
SHA-256 digest of the plaintext password.  getUserInfoV2 assigns the
environment-configured owner role "owner" when the owner has no stored
row, and returns the stored role otherwise. -/
theorem claim_C3 (env : Env) (now : Int) (users : List UserRow) (userName password : String)
    (hdu : distinctUsernames users) :
    (env.username = some userName → env.password = some password →
      verifyUser env users userName password = true) ∧
    (¬(env.username = some userName ∧ env.password = some password) →
      (verifyUser env users userName password = true ↔
        ∃ row, findUser users userName = some row ∧ row.banned = 0 ∧
          row.password_hash = hashPassword password)) ∧
    (env.username = some userName → findUser users userName = none →
      ((getUserInfoV2 env now users userName).1).map (fun i => i.role) = some "owner") ∧
    (∀ row, findUser users userName = some row →
      ((getUserInfoV2 env now users userName).1).map (fun i => i.role) = some row.role) := by
  refine ⟨?_, ?_, ?_, ?_⟩
  · intro h1 h2
    unfold verifyUser
    rw [if_pos (by simp [h1, h2])]
  · intro hnb
    have hcond : (decide (env.username = some userName) &&
        decide (env.password = some password)) = false := by
      by_cases h1 : env.username = some userName
      · by_cases h2 : env.password = some password
        · exact absurd ⟨h1, h2⟩ hnb
        · simp [h2]
      · simp [h1]
    unfold verifyUser
    rw [if_neg (by simp [hcond]), find?_banned_eq users userName hdu]
    rcases hfind : findUser users userName with _ | row
    · simp
    · by_cases hb : row.banned = 0
      · by_cases hh : row.password_hash = ""
        · constructor
          · intro h
            simp [hb, hh] at h
          · rintro ⟨row2, hr2, hb2, hhash⟩
            injection hr2 with hr2
            subst hr2
            rw [hh] at hhash
            exact absurd hhash.symm (hashPassword_ne_empty password)
        · constructor
          · intro h
            have hx := h
            simp [hb, hh] at hx
            exact ⟨row, rfl, hb, hx⟩
          · rintro ⟨row2, hr2, hb2, hhash⟩
            injection hr2 with hr2
            subst hr2
            simp [hb, hh, hhash, hashPassword_ne_empty password]
      · constructor
        · intro h
          simp [hb] at h
        · rintro ⟨row2, hr2, hb2, hhash⟩
          injection hr2 with hr2
          subst hr2
          exact absurd hb2 hb
  · intro henv hnf
    unfold getUserInfoV2
    rw [hnf, if_pos henv]
    rfl
  · intro row hfind
    unfold getUserInfoV2
    rw [hfind]
    rfl

theorem claim_C3_witness :
    distinctUsernames [] ∧
    (verifyUser ⟨some "root", some "pw"⟩ [] "root" "pw" = true) :=
  ⟨List.Pairwise.nil,
   (claim_C3 ⟨some "root", some "pw"⟩ 0 [] "root" "pw" List.Pairwise.nil).1 rfl rfl⟩

/-- C9: for a stored banned user whose credentials do not match the
environment site-owner credentials, verifyUser rejects every password, while
verifyUserV2 accepts the correct one because it never checks the banned
flag. -/
theorem claim_C9 (env : Env) (users : List UserRow) (userName password : String) (row : UserRow)
    (hdu : distinctUsernames users)
    (hfind : findUser users userName = some row)
    (hban : row.banned ≠ 0)
    (hnb : ¬(env.username = some userName ∧ env.password = some password)) :
    verifyUser env users userName password = false ∧
    (row.password_hash = hashPassword password →
      verifyUserV2 users userName password = true) := by
  constructor
  · have hcond : (decide (env.username = some userName) &&
        decide (env.password = some password)) = false := by
      by_cases h1 : env.username = some userName
      · by_cases h2 : env.password = some password
        · exact absurd ⟨h1, h2⟩ hnb
        · simp [h2]
      · simp [h1]
    unfold verifyUser
    rw [if_neg (by simp [hcond]), find?_banned_eq users userName hdu, hfind]
    simp [hban]
  · intro hhash
    unfold verifyUserV2
    rw [hfind]
    exact decide_eq_true_eq.mpr hhash

theorem claim_C9_witness :
    (distinctUsernames [bannedBob] ∧ findUser [bannedBob] "bob" = some bannedBob ∧
      bannedBob.banned ≠ 0 ∧
      ¬((⟨none, none⟩ : Env).username = some "bob" ∧
        (⟨none, none⟩ : Env).password = some "pw")) ∧
    verifyUser ⟨none, none⟩ [bannedBob] "bob" "pw" = false ∧
    verifyUserV2 [bannedBob] "bob" "pw" = true := by
  have h := claim_C9 ⟨none, none⟩ [bannedBob] "bob" "pw" bannedBob
    (List.pairwise_singleton _ _) (by rfl) (by decide) (by simp)
  exact ⟨⟨List.pairwise_singleton _ _, by rfl, by decide, by simp⟩, h.1, h.2 rfl⟩

/-! ### Search history (C6)

`addSearchHistory` upserts (username, keyword) with the current timestamp
and, when the user then has more than 20 rows, deletes every row of the
user whose keyword is not among the 20 most recent.  `getSearchHistory`
returns the 20 most recent keywords, newest first. -/

/-- The INSERT ... ON CONFLICT(username, keyword) DO UPDATE SET timestamp. -/
def searchUpsert (tbl : List SearchRow) (u kw : String) (now : Int) : List SearchRow :=
  upsertWith (fun r => decide (r.username = u) && decide (r.keyword = kw))
    (fun r => { r with timestamp := now }) ⟨u, kw, now⟩ tbl

/-- `addSearchHistory`: upsert, then prune to the top 20 by timestamp when
the user has more than 20 rows. -/
def addSearchHistory (tbl : List SearchRow) (u kw : String) (now : Int) : List SearchRow :=
  if 20 < ((searchUpsert tbl u kw now).filter (fun r => decide (r.username = u))).length then
    pruneUser (fun r => r.username) (fun r => r.keyword) (fun r => r.timestamp)
      (searchUpsert tbl u kw now) u 20
  else searchUpsert tbl u kw now

/-- `getSearchHistory`: keywords of the user ordered by timestamp DESC,
limited to 20. -/
def getSearchHistory (tbl : List SearchRow) (u : String) : List String :=
  ((sortDescBy (fun r : SearchRow => r.timestamp)
      (tbl.filter (fun r => decide (r.username = u)))).take 20).map (fun r => r.keyword)

/-- Folding a sequence of addSearchHistory calls. -/
def applyAdds : List (String × String × Int) → List SearchRow → List SearchRow
  | [], tbl => tbl
  | op :: rest, tbl => applyAdds rest (addSearchHistory tbl op.1 op.2.1 op.2.2)

theorem keyDistinct_upsertWith (userOf keyOf : α → String) (p : α → Bool)
    (upd : α → α) (mk : α) (l : List α)
    (hu1 : ∀ x, userOf (upd x) = userOf x) (hk1 : ∀ x, keyOf (upd x) = keyOf x)
    (hmk : ∀ x, userOf x = userOf mk → keyOf x = keyOf mk → p x = true)
    (h : keyDistinct userOf keyOf l) :
    keyDistinct userOf keyOf (upsertWith p upd mk l) := by
  unfold upsertWith
  by_cases hany : l.any p = true
  · rw [if_pos hany]
    have hfu : ∀ x, userOf (if p x = true then upd x else x) = userOf x := by
      intro x
      by_cases hp : p x = true
      · rw [if_pos hp, hu1]
      · rw [if_neg hp]
    have hfk : ∀ x, keyOf (if p x = true then upd x else x) = keyOf x := by
      intro x
      by_cases hp : p x = true
      · rw [if_pos hp, hk1]
      · rw [if_neg hp]
    refine List.Pairwise.map _ ?_ h
    intro a b hab hcontra
    rw [hfu a, hfu b, hfk a, hfk b] at hcontra
    exact hab hcontra
  · rw [if_neg hany]
    unfold keyDistinct
    rw [List.pairwise_append]
    refine ⟨h, List.pairwise_singleton _ _, ?_⟩
    intro a ha b hb hcontra
    have hbmk : b = mk := by simpa using hb
    subst hbmk
    have hpa : p a = true := hmk a hcontra.1 hcontra.2
    exact hany (List.any_eq_true.mpr ⟨a, ha, hpa⟩)

theorem keyDistinct_pruneUser (userOf keyOf : α → String) (f : α → Int)
    (tbl : List α) (u : String) (m : Nat)
    (h : keyDistinct userOf keyOf tbl) :
    keyDistinct userOf keyOf (pruneUser userOf keyOf f tbl u m) :=
  List.Pairwise.sublist (List.filter_sublist tbl) h

theorem pruneUser_filter_ne (userOf keyOf : α → String) (f : α → Int)
    (tbl : List α) (u : String) (m : Nat) (v : String) (hv : v ≠ u) :
    ((pruneUser userOf keyOf f tbl u m).filter (fun r => decide (userOf r = v))) =
      tbl.filter (fun r => decide (userOf r = v)) := by
  unfold pruneUser
  rw [List.filter_filter]
  apply List.filter_congr
  intro x _
  by_cases hx : userOf x = v
  · have h2 : ¬(userOf x = u) := by rw [hx]; exact hv
    have e1 : decide (userOf x = v) = true := by simp [hx]
    have e2 : decide (userOf x = u) = false := by simp [h2]
    rw [e1, e2]
    simp
  · have e1 : decide (userOf x = v) = false := by simp [hx]
    rw [e1]
    simp

theorem filter_map_ite_length (p q : α → Bool) (upd : α → α) (l : List α)
    (hq : ∀ x, q (upd x) = q x) :
    ((l.map (fun x => if p x then upd x else x)).filter q).length = (l.filter q).length := by
  rw [List.filter_map, List.length_map]
  congr 1
  apply List.filter_congr
  intro x _
  by_cases hp : p x = true
  · simp [Function.comp, hp, hq x]
  · simp [Function.comp, hp]

theorem searchUpsert_filter_ne (tbl : List SearchRow) (u kw : String) (now : Int)
    (v : String) (hv : v ≠ u) :
    ((searchUpsert tbl u kw now).filter (fun r => decide (r.username = v))).length =
      (tbl.filter (fun r => decide (r.username = v))).length := by
  unfold searchUpsert upsertWith
  by_cases hany :
      tbl.any (fun r => decide (r.username = u) && decide (r.keyword = kw)) = true
  · rw [if_pos hany]
    exact filter_map_ite_length _ _ _ tbl (fun x => rfl)
  · rw [if_neg hany, List.filter_append]
    have hmk : (([(⟨u, kw, now⟩ : SearchRow)]).filter
        (fun r => decide (r.username = v))) = [] := by
      simp [Ne.symm hv]
    rw [hmk, List.append_nil]

theorem searchUpsert_filter_u_le (tbl : List SearchRow) (u kw : String) (now : Int) :
    ((searchUpsert tbl u kw now).filter (fun r => decide (r.username = u))).length ≤
      (tbl.filter (fun r => decide (r.username = u))).length + 1 := by
  unfold searchUpsert upsertWith
  by_cases hany :
      tbl.any (fun r => decide (r.username = u) && decide (r.keyword = kw)) = true
  · rw [if_pos hany, filter_map_ite_length
      (fun r : SearchRow => decide (r.username = u) && decide (r.keyword = kw))
      (fun r : SearchRow => decide (r.username = u))
      (fun r : SearchRow => { r with timestamp := now }) tbl (fun x => rfl)]
    omega
  · rw [if_neg hany, List.filter_append, List.length_append]
    have h1 := List.length_filter_le (fun r : SearchRow => decide (r.username = u))
      [(⟨u, kw, now⟩ : SearchRow)]
    simp only [List.length_cons, List.length_nil] at h1
    omega

theorem searchUpsert_wf (tbl : List SearchRow) (u kw : String) (now : Int)
    (h : keyDistinct (fun r : SearchRow => r.username) (fun r => r.keyword) tbl) :
    keyDistinct (fun r : SearchRow => r.username) (fun r => r.keyword)
      (searchUpsert tbl u kw now) := by
  refine keyDistinct_upsertWith _ _ _ _ _ tbl (fun x => rfl) (fun x => rfl) ?_ h
  intro x h1 h2
  simp only [decide_eq_true_eq] at h1 h2 ⊢
  simp [h1, h2]

/-- Every searchUpsert leaves a row of the user carrying the new timestamp
for the given keyword. -/
theorem searchUpsert_mem (tbl : List SearchRow) (u kw : String) (now : Int) :
    ∃ r ∈ searchUpsert tbl u kw now,
      r.username = u ∧ r.keyword = kw ∧ r.timestamp = now := by
  have hfind := find?_upsertWith
    (fun r : SearchRow => decide (r.username = u) && decide (r.keyword = kw))
    (fun r => { r with timestamp := now }) ⟨u, kw, now⟩ tbl
    (fun x hx => hx) (by simp)
  rcases htbl : tbl.find?
      (fun r => decide (r.username = u) && decide (r.keyword = kw)) with _ | r0
  · rw [htbl] at hfind
    exact ⟨_, List.mem_of_find?_eq_some hfind, rfl, rfl, rfl⟩
  · rw [htbl] at hfind
    have hp0 := List.find?_some htbl
    simp only [Bool.and_eq_true, decide_eq_true_eq] at hp0
    exact ⟨_, List.mem_of_find?_eq_some hfind, hp0.1, hp0.2, rfl⟩

/-- One addSearchHistory call preserves the per-user keyword uniqueness and
the 20-row bound for every user. -/
theorem addSearchHistory_step (tbl : List SearchRow) (u kw : String) (now : Int)
    (hwf : keyDistinct (fun r : SearchRow => r.username) (fun r => r.keyword) tbl)
    (hcnt : ∀ v, (tbl.filter (fun r => decide (r.username = v))).length ≤ 20) :
    keyDistinct (fun r : SearchRow => r.username) (fun r => r.keyword)
      (addSearchHistory tbl u kw now) ∧
    ∀ v, ((addSearchHistory tbl u kw now).filter
      (fun r => decide (r.username = v))).length ≤ 20 := by
  have hwf1 := searchUpsert_wf tbl u kw now hwf
  unfold addSearchHistory
  by_cases hgt : 20 <
      ((searchUpsert tbl u kw now).filter (fun r => decide (r.username = u))).length
  · rw [if_pos hgt]
    constructor
    · exact keyDistinct_pruneUser _ _ _ _ _ _ hwf1
    · intro v
      by_cases hv : v = u
      · subst hv
        have hperm := pruneUser_perm (fun r : SearchRow => r.username)
          (fun r => r.keyword) (fun r => r.timestamp) (searchUpsert tbl v kw now) v 20 hwf1
        rw [hperm.length_eq, List.length_take]
        exact inf_le_left
      · rw [pruneUser_filter_ne _ _ _ _ _ _ v hv, searchUpsert_filter_ne tbl u kw now v hv]
        exact hcnt v
  · rw [if_neg hgt]
    refine ⟨hwf1, ?_⟩
    intro v
    by_cases hv : v = u
    · subst hv
      exact Nat.le_of_not_lt hgt
    · rw [searchUpsert_filter_ne tbl u kw now v hv]
      exact hcnt v

theorem applyAdds_inv (ops : List (String × String × Int)) (tbl : List SearchRow)
    (hwf : keyDistinct (fun r : SearchRow => r.username) (fun r => r.keyword) tbl)
    (hcnt : ∀ v, (tbl.filter (fun r => decide (r.username = v))).length ≤ 20) :
    keyDistinct (fun r : SearchRow => r.username) (fun r => r.keyword) (applyAdds ops tbl) ∧
    ∀ v, ((applyAdds ops tbl).filter (fun r => decide (r.username = v))).length ≤ 20 := by
  induction ops generalizing tbl with
  | nil => exact ⟨hwf, hcnt⟩
  | cons op rest ih =>
      have hstep := addSearchHistory_step tbl op.1 op.2.1 op.2.2 hwf hcnt
      exact ih (addSearchHistory tbl op.1 op.2.1 op.2.2) hstep.1 hstep.2

/-- C6: starting from an empty table, after any sequence of
addSearchHistory calls each user has at most 20 rows with pairwise-distinct
keywords; getSearchHistory returns at most 20 keywords of rows of the user
ordered by most recent timestamp first; and adding an existing keyword
updates its timestamp without changing the number of rows of the user. -/
theorem claim_C6 (ops : List (String × String × Int)) (u kw : String) (now : Int) :
    (((applyAdds ops []).filter (fun r => decide (r.username = u))).length ≤ 20) ∧
    keyDistinct (fun r : SearchRow => r.username) (fun r => r.keyword) (applyAdds ops []) ∧
    (∃ rows : List SearchRow,
      getSearchHistory (applyAdds ops []) u = rows.map (fun r => r.keyword) ∧
      List.Sorted (descRel (fun r : SearchRow => r.timestamp)) rows ∧
      rows.length ≤ 20 ∧
      ∀ r ∈ rows, r ∈ applyAdds ops [] ∧ r.username = u) ∧
    ((∃ r ∈ applyAdds ops [], r.username = u ∧ r.keyword = kw) →
      ((((addSearchHistory (applyAdds ops []) u kw now).filter
          (fun r => decide (r.username = u))).length =
        ((applyAdds ops []).filter (fun r => decide (r.username = u))).length) ∧
      (∃ r ∈ addSearchHistory (applyAdds ops []) u kw now,
        r.username = u ∧ r.keyword = kw ∧ r.timestamp = now))) := by
  have hinv := applyAdds_inv ops [] List.Pairwise.nil (fun v => by simp)
  refine ⟨hinv.2 u, hinv.1, ?_, ?_⟩
  · refine ⟨(sortDescBy (fun r : SearchRow => r.timestamp)
        ((applyAdds ops []).filter (fun r => decide (r.username = u)))).take 20,
      rfl, ?_, List.length_take_le _ _, ?_⟩
    · exact List.Pairwise.sublist (List.take_sublist _ _) (List.sorted_insertionSort _ _)
    · intro r hr
      have h1 : r ∈ sortDescBy (fun r : SearchRow => r.timestamp)
          ((applyAdds ops []).filter (fun r => decide (r.username = u))) :=
        List.mem_of_mem_take hr
      rw [sortDescBy, List.mem_insertionSort] at h1
      have h2 := List.mem_filter.mp h1
      exact ⟨h2.1, by simpa using h2.2⟩
  · rintro ⟨r0, hr0, hru, hrk⟩
    have hany : (applyAdds ops []).any
        (fun r => decide (r.username = u) && decide (r.keyword = kw)) = true :=
      List.any_eq_true.mpr ⟨r0, hr0, by simp [hru, hrk]⟩
    have hequ : ((searchUpsert (applyAdds ops []) u kw now).filter
        (fun r => decide (r.username = u))).length =
        ((applyAdds ops []).filter (fun r => decide (r.username = u))).length := by
      unfold searchUpsert upsertWith
      rw [if_pos hany, filter_map_ite_length
        (fun r : SearchRow => decide (r.username = u) && decide (r.keyword = kw))
        (fun r : SearchRow => decide (r.username = u))
        (fun r : SearchRow => { r with timestamp := now }) (applyAdds ops [])
        (fun x => rfl)]
    have hnogt : ¬(20 < ((searchUpsert (applyAdds ops []) u kw now).filter
        (fun r => decide (r.username = u))).length) := by
      rw [hequ]
      exact Nat.not_lt.mpr (hinv.2 u)
    constructor
    · unfold addSearchHistory
      rw [if_neg hnogt]
      exact hequ
    · unfold addSearchHistory
      rw [if_neg hnogt]
      exact searchUpsert_mem (applyAdds ops []) u kw now

theorem claim_C6_witness :
    (∃ r ∈ applyAdds [("alice", "cat", (1 : Int)), ("alice", "dog", 2)] [],
        r.username = "alice" ∧ r.keyword = "cat") ∧
    ((addSearchHistory (applyAdds [("alice", "cat", (1 : Int)), ("alice", "dog", 2)] [])
        "alice" "cat" 9).filter (fun r => decide (r.username = "alice"))).length =
      ((applyAdds [("alice", "cat", (1 : Int)), ("alice", "dog", 2)] []).filter
        (fun r => decide (r.username = "alice"))).length :=
  ⟨by decide,
   ((claim_C6 [("alice", "cat", 1), ("alice", "dog", 2)] "alice" "cat" 9).2.2.2
     (by decide)).1⟩

/-! ### Users-table mutations and migrated-flag monotonicity (C7)

Every statement of either backend that writes the users table, gathered as
one operation type: the three migrate updates, the password / email /
notification / last_movie_request_time updates, updateUserInfoV2 (dynamic
SET over role, banned, tags, oidc_sub, enabled_apis), the three INSERT
paths (createUserV2, createUserWithHashedPassword and the synthetic owner
insert of getUserInfoV2, all of which write 1 into the three migrated
columns), and user deletion. -/

inductive UserOp where
  | migratePlayRecords (userName : String)
  | migrateFavorites (userName : String)
  | migrateSkipConfigs (userName : String)
  | updatePasswordHash (userName newHash : String)
  | updateUserInfoV2 (userName : String) (role : Option String) (banned : Option Bool)
      (tags oidcSub enabledApis : Option String)
  | setUserEmail (userName email : String)
  | setEmailNotificationPreference (userName : String) (enabled : Bool)
  | updateLastMovieRequestTime (userName : String) (t : Int)
  | createUser (userName passwordHash role : String) (banned : Bool)
      (tags oidcSub enabledApis : Option String) (createdAt : Int)
  | deleteUser (userName : String)

/-- The row written by every INSERT INTO users of the code: the migrated
columns are 1 and unlisted columns take their schema defaults. -/
def newUserRow (u h role : String) (banned : Bool)
    (tags oidcSub enabledApis : Option String) (createdAt : Int) : UserRow :=
  { username := u
    password_hash := h
    role := role
    banned := if banned then 1 else 0
    tags := tags
    oidc_sub := oidcSub
    enabled_apis := enabledApis
    created_at := createdAt
    playrecord_migrated := 1
    favorite_migrated := 1
    skip_migrated := 1
    last_movie_request_time := none
    email := none
    email_notifications := 1 }

/-- The row update performed by updateUserInfoV2 for the present fields. -/
def applyInfoUpdate (role : Option String) (banned : Option Bool)
    (tags oidcSub enabledApis : Option String) (r : UserRow) : UserRow :=
  { r with
    role := match role with | some x => x | none => r.role
    banned := match banned with | some b => if b then 1 else 0 | none => r.banned
    tags := match tags with | some x => some x | none => r.tags
    oidc_sub := match oidcSub with | some x => some x | none => r.oidc_sub
    enabled_apis := match enabledApis with | some x => some x | none => r.enabled_apis }

/-- Interpretation of each users-table statement as a table transformation;
UPDATE maps the matching rows, INSERT fails (leaving the table unchanged)
when the primary key exists, DELETE filters. -/
def applyUserOp (op : UserOp) (users : List UserRow) : List UserRow :=
  match op with
  | .migratePlayRecords u =>
      users.map (fun r => if decide (r.username = u) then
        { r with playrecord_migrated := 1 } else r)
  | .migrateFavorites u =>
      users.map (fun r => if decide (r.username = u) then
        { r with favorite_migrated := 1 } else r)
  | .migrateSkipConfigs u =>
      users.map (fun r => if decide (r.username = u) then
        { r with skip_migrated := 1 } else r)
  | .updatePasswordHash u h =>
      users.map (fun r => if decide (r.username = u) then
        { r with password_hash := h } else r)
  | .updateUserInfoV2 u role banned tags oidcSub enabledApis =>
      users.map (fun r => if decide (r.username = u) then
        applyInfoUpdate role banned tags oidcSub enabledApis r else r)
  | .setUserEmail u e =>
      users.map (fun r => if decide (r.username = u) then
        { r with email := some e } else r)
  | .setEmailNotificationPreference u b =>
      users.map (fun r => if decide (r.username = u) then
        { r with email_notifications := if b then 1 else 0 } else r)
  | .updateLastMovieRequestTime u t =>
      users.map (fun r => if decide (r.username = u) then
        { r with last_movie_request_time := some t } else r)
  | .createUser u h role banned tags oidcSub enabledApis createdAt =>
      if users.any (fun r => decide (r.username = u)) then users
      else users ++ [newUserRow u h role banned tags oidcSub enabledApis createdAt]
  | .deleteUser u => users.filter (fun r => decide (r.username ≠ u))

/-- The three migrated flags never go from 1 back to 0. -/
def flagsMono (a b : UserRow) : Prop :=
  (a.playrecord_migrated = 1 → b.playrecord_migrated = 1) ∧
  (a.favorite_migrated = 1 → b.favorite_migrated = 1) ∧
  (a.skip_migrated = 1 → b.skip_migrated = 1)

theorem find?_map_pres (q : α → Bool) (f : α → α) (l : List α)
    (hf : ∀ x, q (f x) = q x) :
    (l.map f).find? q = (l.find? q).map f := by
  induction l with
  | nil => rfl
  | cons x xs ih =>
      by_cases hq : q x = true
      · rw [List.map_cons, List.find?_cons_of_pos _ (by rw [hf]; exact hq),
          List.find?_cons_of_pos _ hq]
        rfl
      · rw [List.map_cons, List.find?_cons_of_neg _ (by rw [hf x]; simpa using hq),
          List.find?_cons_of_neg _ (by simpa using hq), ih]

theorem flagsMono_of_map (users : List UserRow) (u : String) (row row2 : UserRow)
    (f : UserRow → UserRow)
    (hfu : ∀ x, (f x).username = x.username)
    (hmono : ∀ x, flagsMono x (f x))
    (hfind : findUser users u = some row)
    (hfind2 : findUser (users.map f) u = some row2) : flagsMono row row2 := by
  rw [findUser, find?_map_pres _ f users (fun x => by rw [hfu x])] at hfind2
  rw [findUser] at hfind
  rw [hfind] at hfind2
  injection hfind2 with h
  rw [← h]
  exact hmono row

theorem flagsMono_refl (x : UserRow) : flagsMono x x :=
  ⟨id, id, id⟩

theorem find?_filter_comm (q p : α → Bool) (l : List α)
    (himp : ∀ x, q x = true → p x = true) :
    (l.filter p).find? q = l.find? q := by
  induction l with
  | nil => rfl
  | cons x xs ih =>
      by_cases hq : q x = true
      · rw [List.filter_cons_of_pos (himp x hq), List.find?_cons_of_pos _ hq,
          List.find?_cons_of_pos _ hq]
      · by_cases hp : p x = true
        · rw [List.filter_cons_of_pos hp, List.find?_cons_of_neg _ (by simpa using hq),
            List.find?_cons_of_neg _ (by simpa using hq), ih]
        · rw [List.filter_cons_of_neg (by simpa using hp),
            List.find?_cons_of_neg _ (by simpa using hq), ih]

/-- C7: the per-user flags playrecord_migrated, favorite_migrated and
skip_migrated are monotonic: no users-table operation of the storage layer
changes any of them from 1 back to 0, and each migrate operation only sets
its own flag to 1, leaving the rest of the row unchanged. -/
theorem claim_C7 (op : UserOp) (users : List UserRow) (u : String) (row row2 : UserRow)
    (hfind : findUser users u = some row)
    (hfind2 : findUser (applyUserOp op users) u = some row2) :
    flagsMono row row2 ∧
    (∀ v, findUser (applyUserOp (UserOp.migratePlayRecords v) users) v =
      (findUser users v).map (fun r => { r with playrecord_migrated := 1 })) ∧
    (∀ v, findUser (applyUserOp (UserOp.migrateFavorites v) users) v =
      (findUser users v).map (fun r => { r with favorite_migrated := 1 })) ∧
    (∀ v, findUser (applyUserOp (UserOp.migrateSkipConfigs v) users) v =
      (findUser users v).map (fun r => { r with skip_migrated := 1 })) := by
  have hmig : ∀ (v : String) (g : UserRow → UserRow), (∀ x, (g x).username = x.username) →
      findUser (users.map (fun r => if decide (r.username = v) then g r else r)) v =
        (findUser users v).map g := by
    intro v g hg
    have hq : ∀ x : UserRow,
        (decide ((if decide (x.username = v) = true then g x else x).username = v)) =
          decide (x.username = v) := by
      intro x
      by_cases hx : decide (x.username = v) = true
      · rw [if_pos hx, hg]
      · rw [if_neg hx]
    rw [findUser, find?_map_pres _ _ users hq]
    rcases hf : users.find? (fun x => decide (x.username = v)) with _ | r
    · rw [findUser, hf]
      rfl
    · rw [findUser, hf]
      have hp : decide (r.username = v) = true :=
        @List.find?_some UserRow (fun x => decide (x.username = v)) r users hf
      simp only [Option.map_some']
      rw [if_pos hp]
  have hmapMono : ∀ (v : String) (g : UserRow → UserRow), (∀ x, (g x).username = x.username) →
      (∀ x, flagsMono x (g x)) →
      findUser (users.map (fun r => if decide (r.username = v) then g r else r)) u =
        some row2 → flagsMono row row2 := by
    intro v g hg hmono hf2
    refine flagsMono_of_map users u row row2 _ ?_ ?_ hfind hf2
    · intro x
      by_cases hx : decide (x.username = v) = true
      · rw [if_pos hx, hg]
      · rw [if_neg hx]
    · intro x
      by_cases hx : decide (x.username = v) = true
      · rw [if_pos hx]
        exact hmono x
      · rw [if_neg hx]
        exact flagsMono_refl x
  refine ⟨?_, ?_, ?_, ?_⟩
  · rcases op with v | v | v | ⟨v, h⟩ | ⟨v, role, banned, tags, oidcSub, enabledApis⟩ |
      ⟨v, e⟩ | ⟨v, b⟩ | ⟨v, t⟩ | ⟨v, h, role, banned, tags, oidcSub, enabledApis, created⟩ | v
    · unfold applyUserOp at hfind2
      exact hmapMono v (fun r => { r with playrecord_migrated := 1 })
        (fun x => rfl) (fun x => ⟨fun _ => rfl, id, id⟩) hfind2
    · unfold applyUserOp at hfind2
      exact hmapMono v (fun r => { r with favorite_migrated := 1 })
        (fun x => rfl) (fun x => ⟨id, fun _ => rfl, id⟩) hfind2
    · unfold applyUserOp at hfind2
      exact hmapMono v (fun r => { r with skip_migrated := 1 })
        (fun x => rfl) (fun x => ⟨id, id, fun _ => rfl⟩) hfind2
    · unfold applyUserOp at hfind2
      exact hmapMono v (fun r => { r with password_hash := h })
        (fun x => rfl) (fun x => ⟨id, id, id⟩) hfind2
    · unfold applyUserOp at hfind2
      exact hmapMono v (applyInfoUpdate role banned tags oidcSub enabledApis)
        (fun x => rfl) (fun x => ⟨id, id, id⟩) hfind2
    · unfold applyUserOp at hfind2
      exact hmapMono v (fun r => { r with email := some e })
        (fun x => rfl) (fun x => ⟨id, id, id⟩) hfind2
    · unfold applyUserOp at hfind2
      exact hmapMono v (fun r => { r with email_notifications := if b then 1 else 0 })
        (fun x => rfl) (fun x => ⟨id, id, id⟩) hfind2
    · unfold applyUserOp at hfind2
      exact hmapMono v (fun r => { r with last_movie_request_time := some t })
        (fun x => rfl) (fun x => ⟨id, id, id⟩) hfind2
    · simp only [applyUserOp] at hfind2
      by_cases hany : users.any (fun r => decide (r.username = v)) = true
      · rw [if_pos hany, hfind] at hfind2
        injection hfind2 with h2
        rw [← h2]
        exact flagsMono_refl row
      · rw [if_neg hany] at hfind2
        rw [findUser, List.find?_append] at hfind2
        rw [findUser] at hfind
        rw [hfind] at hfind2
        have h2 : some row = some row2 := hfind2
        injection h2 with h2
        rw [← h2]
        exact flagsMono_refl row
    · simp only [applyUserOp] at hfind2
      by_cases huv : u = v
      · subst huv
        have hnone : (users.filter (fun r => decide (r.username ≠ u))).find?
            (fun r => decide (r.username = u)) = none := by
          rw [List.find?_eq_none]
          intro x hx
          have hne := (List.mem_filter.mp hx).2
          simp only [decide_eq_true_eq] at hne ⊢
          exact hne
        rw [findUser, hnone] at hfind2
        cases hfind2
      · have himp : ∀ x : UserRow, decide (x.username = u) = true →
            decide (x.username ≠ v) = true := by
          intro x hx
          simp only [decide_eq_true_eq] at hx ⊢
          rw [hx]
          exact huv
        rw [findUser, find?_filter_comm _ _ users himp, ← findUser, hfind] at hfind2
        injection hfind2 with h2
        rw [← h2]
        exact flagsMono_refl row
  · intro v
    exact hmig v (fun r => { r with playrecord_migrated := 1 }) (fun x => rfl)
  · intro v
    exact hmig v (fun r => { r with favorite_migrated := 1 }) (fun x => rfl)
  · intro v
    exact hmig v (fun r => { r with skip_migrated := 1 }) (fun x => rfl)

theorem claim_C7_witness :
    (findUser [cUserRow "alice" "user" 4] "alice" = some (cUserRow "alice" "user" 4) ∧
      findUser (applyUserOp (UserOp.migratePlayRecords "alice")
        [cUserRow "alice" "user" 4]) "alice" =
          some { cUserRow "alice" "user" 4 with playrecord_migrated := 1 }) ∧
    flagsMono (cUserRow "alice" "user" 4)
      { cUserRow "alice" "user" 4 with playrecord_migrated := 1 } :=
  ⟨⟨by decide, by decide⟩,
   (claim_C7 (UserOp.migratePlayRecords "alice") [cUserRow "alice" "user" 4] "alice"
     (cUserRow "alice" "user" 4) { cUserRow "alice" "user" 4 with playrecord_migrated := 1 }
     (by decide) (by decide)).1⟩

/-! ### Admin configuration singleton (C8)

The admin_config table has CHECK(id = 1) and id as primary key, so a valid
table has at most one row, with id 1.  setAdminConfig upserts the row with
id 1 holding the JSON string of the config; getAdminConfig parses the
stored string.  JSON serialization is performed by the JavaScript runtime,
so it enters the theorem as a stringify / parse pair assumed to round-trip. -/

structure AdminConfigRow where
  id : Nat
  config : String
  updated_at : Int
deriving DecidableEq, Repr

/-- `setAdminConfig`: INSERT (1, config, now) ON CONFLICT (id) DO UPDATE. -/
def setAdminConfig (tbl : List AdminConfigRow) (configStr : String) (now : Int) :
    List AdminConfigRow :=
  upsertWith (fun r => decide (r.id = 1))
    (fun r => { r with config := configStr, updated_at := now })
    ⟨1, configStr, now⟩ tbl

/-- `getAdminConfig`: SELECT config WHERE id = 1, then JSON.parse. -/
def getAdminConfig (parse : String → Option α) (tbl : List AdminConfigRow) : Option α :=
  match tbl.find? (fun r => decide (r.id = 1)) with
  | some r => parse r.config
  | none => none

/-- C8: the admin configuration is a singleton: setAdminConfig always
writes the single row with id 1 (upserting on conflict), and getAdminConfig
after setAdminConfig returns the stored config for every config, given that
parse inverts stringify (the contract of the JSON runtime) and that the
table satisfies its schema constraints (all ids are 1, at most one row). -/
theorem claim_C8 {α : Type} (stringify : α → String) (parse : String → Option α)
    (hrt : ∀ c, parse (stringify c) = some c)
    (tbl : List AdminConfigRow) (c : α) (now : Int)
    (hid : ∀ r ∈ tbl, r.id = 1) (hlen : tbl.length ≤ 1) :
    (∀ r ∈ setAdminConfig tbl (stringify c) now, r.id = 1) ∧
    (setAdminConfig tbl (stringify c) now).length = 1 ∧
    getAdminConfig parse (setAdminConfig tbl (stringify c) now) = some c := by
  refine ⟨?_, ?_, ?_⟩
  · intro r hr
    rcases mem_upsertWith _ _ _ _ _ hr with hmk | ⟨y, hy, hyy | ⟨_, hupd⟩⟩
    · rw [hmk]
    · rw [hyy]
      exact hid y hy
    · rw [hupd]
      exact hid y hy
  · unfold setAdminConfig upsertWith
    by_cases hany : tbl.any (fun r => decide (r.id = 1)) = true
    · rw [if_pos hany, List.length_map]
      obtain ⟨x, hx, _⟩ := List.any_eq_true.mp hany
      have h1 : 1 ≤ tbl.length := List.length_pos.mpr (fun hnil => by simp [hnil] at hx)
      omega
    · rw [if_neg hany, List.length_append]
      rcases tbl with _ | ⟨x, xs⟩
      · rfl
      · exfalso
        apply hany
        exact List.any_eq_true.mpr ⟨x, List.mem_cons_self x xs, by simp [hid x (List.mem_cons_self x xs)]⟩
  · unfold getAdminConfig setAdminConfig
    rw [find?_upsertWith (fun r : AdminConfigRow => decide (r.id = 1))
      (fun r => { r with config := stringify c, updated_at := now })
      (⟨1, stringify c, now⟩ : AdminConfigRow) tbl (fun x hx => hx) (by simp)]
    rcases hf : tbl.find? (fun r => decide (r.id = 1)) with _ | r
    · rw [hf]
      exact hrt c
    · rw [hf]
      exact hrt c

theorem claim_C8_witness :
    ((∀ c : String, some c = some c) ∧
      (∀ r ∈ ([] : List AdminConfigRow), r.id = 1) ∧ ([] : List AdminConfigRow).length ≤ 1) ∧
    getAdminConfig some (setAdminConfig [] "cfg" 7) = some "cfg" :=
  ⟨⟨fun _ => rfl, fun r hr => absurd hr (List.not_mem_nil r), by simp⟩,
   (claim_C8 (fun x => x) some (fun _ => rfl) [] "cfg" 7
     (fun r hr => absurd hr (List.not_mem_nil r)) (by simp)).2.2⟩

end MoonTV





